import Mathlib

/-!
A shallow embedding of the sliding-window counter (`counter.go`) together
with proofs about its construction, advance/rotation, count estimate and
teardown behaviour.

Instants (`time.Time`) and durations (`time.Duration`) are both modelled as
integers (nanosecond counts); `int64` event counts are integers; Go's
`float64` weight arithmetic in `Count` is modelled exactly over `ℚ`, with
the `int64(...)` conversion modelled as truncation toward zero. Go channels
are modelled as `Option Unit`, with `none` standing for a nil channel.
-/

/-- Models Go `time.Time.Truncate d`: for `d > 0` it rounds down to a
multiple of `d` since the zero time (the remainder is always non-negative,
so this is floor division); for `d ≤ 0` the instant is returned unchanged. -/
def goTruncate (t d : ℤ) : ℤ := if d ≤ 0 then t else d * Int.fdiv t d

/-- Models Go's builtin `close` on a channel modelled as `Option Unit`
(`none` is a nil channel): closing a nil channel panics. -/
def goClose (ch : Option Unit) : Except String Unit :=
  match ch with
  | none => Except.error "close of nil channel"
  | some _ => Except.ok ()

/-- Modelled from the spec: the backend kind behind a `Window`
implementation — the in-process local backend or an externally synchronized
one (`window.go` is not among the sources at hand, only its contract in the
spec). -/
inductive Backend where
  | localB
  | remoteB
deriving DecidableEq

/-- Modelled from the spec: the observable data of a `Window` backend — a
start instant and an event count — tagged with its backend kind. -/
structure Window where
  backend : Backend
  start : ℤ
  count : ℤ
deriving DecidableEq

/-- Modelled from the spec: `Start()` returns the window's start instant. -/
def Window.Start (w : Window) : ℤ := w.start

/-- Modelled from the spec: `Count()` returns the window's event count. -/
def Window.Count (w : Window) : ℤ := w.count

/-- Modelled from the spec: `AddCount(n)` adds `n` to the window's count. -/
def Window.AddCount (w : Window) (n : ℤ) : Window := { w with count := w.count + n }

/-- Modelled from the spec: `Reset(s, c)` replaces start and count. -/
def Window.Reset (w : Window) (s c : ℤ) : Window := { w with start := s, count := c }

/-- Modelled from the spec: `Sync(now)` is best-effort reconciliation with
the window's backing store; on the in-memory fields it is observationally a
no-op (for a `LocalWindow` literally so). -/
def Window.Sync (w : Window) (_now : ℤ) : Window := w

/-- Modelled from the spec: a stop/cleanup function whose effect lies
outside the model. -/
def StopFunc : Type := Unit

/-- Modelled from the spec: a window factory produces a `Window` and a stop
function. -/
def NewWindow : Type := Unit → Window × StopFunc

/-- Modelled from the spec: `NewLocalWindow` yields a zero-valued local
window (start at the zero time, count `0`) and a no-op stop function. -/
def NewLocalWindow : NewWindow := fun _ => (⟨Backend.localB, 0, 0⟩, ())

/-- The counter state (`counter.go` lines 9-19). The mutex only serializes
access and has no observable data, so it is not part of the state; the
`syncStopCh` channel field is `Option Unit`, `none` being nil. -/
structure Counter where
  size : ℤ
  curr : Window
  prev : Window
  syncInterval : ℤ
  syncStopCh : Option Unit
deriving DecidableEq

/-- Embeds `NewCounter` (`counter.go` lines 23-50): the current window comes
from the factory, the previous window is always a fresh `LocalWindow`, and
the `syncStopCh` field is never assigned, so it keeps its zero value (a nil
channel). The factory's stop function is returned to the caller. -/
def NewCounter (size : ℤ) (newWindow : NewWindow) (syncInterval : ℤ) :
    Counter × StopFunc :=
  let currPair := newWindow ()
  let prevPair := NewLocalWindow ()
  ({ size := size
     curr := currPair.1
     prev := prevPair.1
     syncInterval := syncInterval
     syncStopCh := none }, currPair.2)

/-- Embeds the `if syncInterval > 0` guard of `NewCounter` (line 41): when
it holds, a background `Sync` goroutine is started and a finalizer is
registered; otherwise neither exists. -/
def syncStarted (syncInterval : ℤ) : Bool := decide (0 < syncInterval)

/-- Embeds the finalizer body registered by `NewCounter` (lines 44-46):
`close(counter.syncStopCh)`. -/
def counterFinalizer (c : Counter) : Except String Unit := goClose c.syncStopCh

/-- Whether the `case <-counter.syncStopCh` branch of the `select` in the
background `Sync` loop (line 56) can ever fire: a receive on a nil channel
blocks forever, so the branch is selectable only for a non-nil channel. -/
def syncStopSelectable (c : Counter) : Bool := c.syncStopCh.isSome

/-- The window-aligned start boundary of the expected current window
(`counter.go` line 107). -/
def Counter.newCurrStart (counter : Counter) (now : ℤ) : ℤ :=
  goTruncate now counter.size

/-- How many whole window sizes the live current window lags the expected
one (`counter.go` line 109); Go `Duration` division truncates toward
zero. -/
def Counter.diffSize (counter : Counter) (now : ℤ) : ℤ :=
  Int.tdiv (counter.newCurrStart now - counter.curr.Start) counter.size

/-- Embeds `advance` (`counter.go` lines 105-128). -/
def Counter.advance (counter : Counter) (now : ℤ) : Counter :=
  if 1 ≤ counter.diffSize now then
    let newPrevCount : ℤ := if counter.diffSize now = 1 then counter.curr.Count else 0
    { counter with
      prev := counter.prev.Reset (counter.newCurrStart now - counter.size) newPrevCount
      curr := counter.curr.Reset (counter.newCurrStart now) 0 }
  else
    counter

/-- Truncation toward zero of a rational number: models Go's `int64(x)`
conversion from `float64`. -/
def ratTrunc (q : ℚ) : ℤ := Int.tdiv q.num q.den

/-- Embeds `Count` (`counter.go` lines 91-102). The state mutation performed
under the lock is exactly `advance`; the returned pair is the counter state
after the call together with the computed estimate. The `float64` weight
arithmetic is modelled exactly over `ℚ`. -/
def Counter.Count (counter : Counter) (now : ℤ) : Counter × ℤ :=
  let c2 := counter.advance now
  let elapsed : ℤ := now - c2.curr.Start
  let weight : ℚ := ((c2.size - elapsed : ℤ) : ℚ) / ((c2.size : ℤ) : ℚ)
  let count : ℤ := ratTrunc (weight * ((c2.prev.Count : ℤ) : ℚ)) + c2.curr.Count
  (c2, count)

/-- Embeds `AddN` (`counter.go` lines 79-89): advance, add `n` to the
current window, then trigger the current window's `Sync` (deferred in the
source, so it runs after the add). -/
def Counter.AddN (counter : Counter) (now n : ℤ) : Counter :=
  let c2 := counter.advance now
  let c3 := { c2 with curr := c2.curr.AddCount n }
  { c3 with curr := c3.curr.Sync now }

/-- Embeds `Increment` (`counter.go` lines 74-76), with `time.Now()`
modelled as an explicit `now` parameter: `AddN(now, 1)`. -/
def Counter.Increment (counter : Counter) (now : ℤ) : Counter :=
  counter.AddN now 1

/-- Embeds `Size` (`counter.go` lines 69-71). -/
def Counter.Size (counter : Counter) : ℤ := counter.size

/-- The weighted estimate of `counter.go` lines 97-99, evaluated on the
post-advance state `c2`: `Count` is definitionally `advance` followed by
this formula. -/
def countFormula (c2 : Counter) (now : ℤ) : ℤ :=
  ratTrunc (((c2.size - (now - c2.curr.Start) : ℤ) : ℚ) / ((c2.size : ℤ) : ℚ)
      * ((c2.prev.Count : ℤ) : ℚ)) + c2.curr.Count

/-- A concrete counter with window size 60, an aligned current window
holding 7 events, and a consistent previous window holding 3; used as a
witness input. -/
def demoCounter : Counter :=
  ⟨60, ⟨Backend.localB, 0, 7⟩, ⟨Backend.localB, -60, 3⟩, 0, none⟩

/-- The counter of the 60-second spec scenario: window size 60, current
window starting at the aligned instant `60 * k` holding 10 events, an
arbitrary previous window. -/
def scenarioCounter (b bp : Backend) (k ps pc : ℤ) : Counter :=
  ⟨60, ⟨b, 60 * k, 10⟩, ⟨bp, ps, pc⟩, 0, none⟩

/-! ### Helper lemmas about `goTruncate` and `advance` -/

theorem goTruncate_of_pos {d : ℤ} (t : ℤ) (h : 0 < d) :
    goTruncate t d = d * Int.fdiv t d := by
  unfold goTruncate
  rw [if_neg (by omega)]

theorem goTruncate_bounds {d : ℤ} (t : ℤ) (h : 0 < d) :
    goTruncate t d ≤ t ∧ t < goTruncate t d + d := by
  rw [goTruncate_of_pos t h]
  have h1 := Int.fdiv_add_fmod t d
  have h2 := Int.fmod_nonneg' t h
  have h3 := Int.fmod_lt_of_pos t h
  omega

theorem tdiv_nonpos_of_nonpos (a b : ℤ) (ha : a ≤ 0) (hb : 0 ≤ b) :
    a.tdiv b ≤ 0 := by
  have h1 : (0:ℤ) ≤ (-a).tdiv b := Int.tdiv_nonneg (by omega) hb
  have h2 : (-a).tdiv b = -(a.tdiv b) := Int.neg_tdiv a b
  omega

theorem advance_of_lt (c : Counter) (now : ℤ) (h : c.diffSize now < 1) :
    c.advance now = c := by
  unfold Counter.advance
  rw [if_neg (by omega)]

theorem advance_of_ge (c : Counter) (now : ℤ) (h : 1 ≤ c.diffSize now) :
    c.advance now =
      { c with
        prev := c.prev.Reset (c.newCurrStart now - c.size)
                  (if c.diffSize now = 1 then c.curr.Count else 0)
        curr := c.curr.Reset (c.newCurrStart now) 0 } := by
  unfold Counter.advance
  rw [if_pos h]

theorem advance_size (c : Counter) (now : ℤ) : (c.advance now).size = c.size := by
  unfold Counter.advance
  split <;> rfl

theorem diffSize_aligned (c : Counter) (now k : ℤ) (hsz : 0 < c.size)
    (hal : c.curr.Start = c.size * k) :
    c.diffSize now = Int.fdiv now c.size - k := by
  unfold Counter.diffSize Counter.newCurrStart
  rw [goTruncate_of_pos now hsz, hal, ← Int.mul_sub]
  exact Int.mul_tdiv_cancel_left _ (by omega)

theorem advance_elapsed_lt (c : Counter) (now k : ℤ) (hsz : 0 < c.size)
    (hal : c.curr.Start = c.size * k) :
    now - (c.advance now).curr.Start < c.size := by
  by_cases h : 1 ≤ c.diffSize now
  · rw [advance_of_ge c now h]
    show now - c.newCurrStart now < c.size
    have hb := goTruncate_bounds now hsz
    unfold Counter.newCurrStart
    omega
  · rw [advance_of_lt c now (by omega)]
    have hd := diffSize_aligned c now k hsz hal
    have hm : Int.fdiv now c.size ≤ k := by omega
    have hb := goTruncate_bounds now hsz
    rw [goTruncate_of_pos now hsz] at hb
    have hmul : c.size * Int.fdiv now c.size ≤ c.size * k :=
      Int.mul_le_mul_of_nonneg_left hm (by omega)
    rw [hal]
    omega

theorem advance_start_le (c : Counter) (now : ℤ) (hsz : 0 < c.size)
    (hle : c.curr.Start ≤ now) :
    (c.advance now).curr.Start ≤ now := by
  by_cases h : 1 ≤ c.diffSize now
  · rw [advance_of_ge c now h]
    show c.newCurrStart now ≤ now
    have hb := goTruncate_bounds now hsz
    unfold Counter.newCurrStart
    omega
  · rw [advance_of_lt c now (by omega)]
    exact hle

theorem advance_aligned (c : Counter) (now k : ℤ) (hsz : 0 < c.size)
    (hal : c.curr.Start = c.size * k) :
    ∃ m, (c.advance now).curr.Start = c.size * m := by
  by_cases h : 1 ≤ c.diffSize now
  · rw [advance_of_ge c now h]
    exact ⟨Int.fdiv now c.size, goTruncate_of_pos now hsz⟩
  · rw [advance_of_lt c now (by omega)]
    exact ⟨k, hal⟩

theorem advance_prev_count_nonneg (c : Counter) (now : ℤ)
    (hp : 0 ≤ c.prev.Count) (hc : 0 ≤ c.curr.Count) :
    0 ≤ (c.advance now).prev.Count := by
  by_cases h : 1 ≤ c.diffSize now
  · rw [advance_of_ge c now h]
    show (0:ℤ) ≤ (if c.diffSize now = 1 then c.curr.Count else 0)
    split
    · exact hc
    · exact le_refl 0
  · rw [advance_of_lt c now (by omega)]
    exact hp

theorem ratTrunc_eq_floor (q : ℚ) (h : 0 ≤ q) : ratTrunc q = ⌊q⌋ := by
  unfold ratTrunc
  rw [Rat.floor_def]
  exact Int.tdiv_eq_ediv (Rat.num_nonneg.mpr h) (Int.natCast_nonneg _)

/-! ### Claim theorems -/

/-- C2: for every call of `advance(now)`, with `newCurrStart` equal to `now`
truncated down to a multiple of `size` and `diff = (newCurrStart -
curr.Start()) / size`, if `diff >= 1` the counter rotates exactly once:
`prev` is reset to start `newCurrStart - size` with count `curr.Count()`
when `diff == 1` and `0` when `diff > 1`, and `curr` is reset to start
`newCurrStart` with count `0`. -/
theorem advance_rotates_once (c : Counter) (now : ℤ) (hsz : 0 < c.size)
    (h : 1 ≤ c.diffSize now) :
    (c.advance now).prev.Start = c.newCurrStart now - c.size ∧
    (c.diffSize now = 1 → (c.advance now).prev.Count = c.curr.Count) ∧
    (1 < c.diffSize now → (c.advance now).prev.Count = 0) ∧
    (c.advance now).curr.Start = c.newCurrStart now ∧
    (c.advance now).curr.Count = 0 := by
  rw [advance_of_ge c now h]
  refine ⟨rfl, ?_, ?_, rfl, rfl⟩
  · intro h1
    show (if c.diffSize now = 1 then c.curr.Count else 0) = c.curr.Count
    rw [if_pos h1]
  · intro h1
    show (if c.diffSize now = 1 then c.curr.Count else 0) = 0
    rw [if_neg (by omega)]

/-- Witness for C2: at `now = 130` on `demoCounter` (size 60, current start
0), `diff = 2`, and the rotation produces `prev = (60, 0)`,
`curr = (120, 0)`. -/
theorem advance_rotates_once_witness :
    (0:ℤ) < demoCounter.size ∧ 1 ≤ demoCounter.diffSize 130 ∧
    (demoCounter.advance 130).prev.Start = demoCounter.newCurrStart 130 - demoCounter.size := by
  refine ⟨by decide, by decide, ?_⟩
  exact (advance_rotates_once demoCounter 130 (by decide) (by decide)).1

/-- C3 counterexample: construction does not fail on a non-positive size —
`NewCounter` called with `size = 0` and with `size = -60` returns a counter
carrying exactly that size (there is no failure path in `NewCounter`). -/
theorem newCounter_no_size_validation_cex :
    ((NewCounter 0 NewLocalWindow 0).1.size = 0) ∧
    ((NewCounter (-60) NewLocalWindow 0).1.size = -60) :=
  ⟨rfl, rfl⟩

/-- C3 amended: `NewCounter` performs no validation of `size`: for every
size, including non-positive ones, it returns a counter whose `size` field
is the given value, whose current window is the factory's window and whose
previous window is a fresh local window. -/
theorem newCounter_accepts_nonpositive_size (sz si : ℤ) (w : NewWindow)
    (h : sz ≤ 0) :
    (NewCounter sz w si).1.size = sz ∧
    (NewCounter sz w si).1.curr = (w ()).1 ∧
    (NewCounter sz w si).1.prev = (NewLocalWindow ()).1 :=
  ⟨rfl, rfl, rfl⟩

/-- Witness for the amended C3 at `size = -60`. -/
theorem newCounter_accepts_nonpositive_size_witness :
    (-60 : ℤ) ≤ 0 ∧ (NewCounter (-60) NewLocalWindow 5).1.size = -60 :=
  ⟨by decide, (newCounter_accepts_nonpositive_size (-60) 5 NewLocalWindow (by decide)).1⟩

/-- C5 counterexample: with `syncInterval = 5 > 0` the background loop is
started, yet the constructed counter's only counter-level teardown path —
the registered finalizer `close(counter.syncStopCh)` — panics on the nil
channel instead of safely signalling the loop, whose stop branch can never
be selected. There is no explicit public `Stop` operation in the source. -/
theorem no_explicit_stop_cex :
    syncStarted 5 = true ∧
    (NewCounter 60 NewLocalWindow 5).1.syncStopCh = none ∧
    counterFinalizer (NewCounter 60 NewLocalWindow 5).1 =
      Except.error "close of nil channel" ∧
    syncStopSelectable (NewCounter 60 NewLocalWindow 5).1 = false :=
  ⟨rfl, rfl, rfl, rfl⟩

/-- C5 amended: the Counter exposes no public `Stop` method. When
`syncInterval ≤ 0` no background task or finalizer is installed, so there is
nothing to tear down; when `syncInterval > 0`, teardown happens only through
the registered finalizer, whose body `close(counter.syncStopCh)` panics on
the never-assigned nil channel and therefore cannot signal the background
`Sync` loop to stop. -/
theorem teardown_via_finalizer_only (sz si : ℤ) (w : NewWindow) :
    (si ≤ 0 → syncStarted si = false) ∧
    (0 < si → syncStarted si = true ∧
      counterFinalizer (NewCounter sz w si).1 = Except.error "close of nil channel" ∧
      syncStopSelectable (NewCounter sz w si).1 = false) := by
  constructor
  · intro h
    simp only [syncStarted, decide_eq_false_iff_not]
    omega
  · intro h
    exact ⟨by simp only [syncStarted, decide_eq_true_eq]; omega, rfl, rfl⟩

/-- Witness for the amended C5 at `syncInterval = 5`. -/
theorem teardown_via_finalizer_only_witness :
    (0:ℤ) < 5 ∧ counterFinalizer (NewCounter 60 NewLocalWindow 5).1 =
      Except.error "close of nil channel" :=
  ⟨by decide, ((teardown_via_finalizer_only 60 5 NewLocalWindow).2 (by decide)).2.1⟩

/-- C6: after `NewCounter` returns — for every size, factory and
`syncInterval`, including `syncInterval > 0` — the `syncStopCh` field was
never assigned and is nil; hence the stop branch of the background `Sync`
loop's `select` can never be selected, and the finalizer's
`close(counter.syncStopCh)` closes a nil channel, which panics. -/
theorem newCounter_syncStopCh_nil (sz si : ℤ) (w : NewWindow) :
    (NewCounter sz w si).1.syncStopCh = none ∧
    syncStopSelectable (NewCounter sz w si).1 = false ∧
    counterFinalizer (NewCounter sz w si).1 = Except.error "close of nil channel" :=
  ⟨rfl, rfl, rfl⟩

/-- C7: whenever `diff = (truncate(now, size) - curr.Start()) / size` is
less than 1, `advance(now)` leaves the whole counter state (both windows'
start and count) unchanged; and any `now` earlier than `curr.start` yields
`diff < 1`, so the counter never rotates backward. -/
theorem advance_frame_no_rotation (c : Counter) (now : ℤ) (hsz : 0 < c.size) :
    (c.diffSize now < 1 → c.advance now = c) ∧
    (now < c.curr.Start → c.diffSize now < 1) := by
  constructor
  · exact advance_of_lt c now
  · intro hlt
    have hb := goTruncate_bounds now hsz
    unfold Counter.diffSize Counter.newCurrStart
    have h0 : goTruncate now c.size - c.curr.Start ≤ 0 := by omega
    have h1 := tdiv_nonpos_of_nonpos (goTruncate now c.size - c.curr.Start) c.size h0 (by omega)
    omega

/-- Witness for C7: on `demoCounter` at `now = 30` (same bucket) `diff = 0`
and `advance` is the identity; and `now = -10` lies before the current
start. -/
theorem advance_frame_no_rotation_witness :
    (0:ℤ) < demoCounter.size ∧
    (demoCounter.diffSize 30 < 1 → demoCounter.advance 30 = demoCounter) ∧
    (-10 < demoCounter.curr.Start → demoCounter.diffSize (-10) < 1) :=
  ⟨by decide, (advance_frame_no_rotation demoCounter 30 (by decide)).1,
    (advance_frame_no_rotation demoCounter (-10) (by decide)).2⟩

/-- C8: for every window factory passed to the constructor, the
previous-window slot is always created as a `LocalWindow` (the local,
non-synchronized backend with zero start and count), independent of what
backend the factory produces for the current slot. -/
theorem prev_window_always_local (sz si : ℤ) (w : NewWindow) :
    (NewCounter sz w si).1.prev = (NewLocalWindow ()).1 ∧
    (NewCounter sz w si).1.prev.backend = Backend.localB :=
  ⟨rfl, rfl⟩

/-! ### Further helper lemmas -/

theorem Count_eq_formula (c : Counter) (now : ℤ) :
    c.Count now = (c.advance now, countFormula (c.advance now) now) := rfl

theorem AddN_prev (c : Counter) (now n : ℤ) :
    (c.AddN now n).prev = (c.advance now).prev := rfl

theorem AddN_curr_start (c : Counter) (now n : ℤ) :
    (c.AddN now n).curr.Start = (c.advance now).curr.Start := rfl

theorem AddN_size (c : Counter) (now n : ℤ) :
    (c.AddN now n).size = c.size := by
  show (c.advance now).size = c.size
  exact advance_size c now

theorem advance_prev_start_eq (c : Counter) (now : ℤ)
    (h : c.prev.Start = c.curr.Start - c.size) :
    (c.advance now).prev.Start = (c.advance now).curr.Start - c.size := by
  by_cases h1 : 1 ≤ c.diffSize now
  · rw [advance_of_ge c now h1]
    rfl
  · rw [advance_of_lt c now (by omega)]
    exact h

theorem advance_idem (c : Counter) (now : ℤ) :
    (c.advance now).advance now = c.advance now := by
  by_cases h : 1 ≤ c.diffSize now
  · have hstart : (c.advance now).curr.Start = c.newCurrStart now := by
      rw [advance_of_ge c now h]
      rfl
    have hsize : (c.advance now).size = c.size := advance_size c now
    have hd : (c.advance now).diffSize now < 1 := by
      unfold Counter.diffSize Counter.newCurrStart
      rw [hsize, hstart]
      unfold Counter.newCurrStart
      rw [sub_self, Int.zero_tdiv]
      omega
    exact advance_of_lt _ now hd
  · rw [advance_of_lt c now (by omega), advance_of_lt c now (by omega)]

/-- C10: calling `Count(now)` twice with the same `now` and no intervening
writes returns the same value both times — the first call's `advance` leaves
the counter in a state where a second `advance` with the same `now` is a
no-op. -/
theorem count_idempotent (c : Counter) (now : ℤ) (hsz : 0 < c.size) :
    ((c.Count now).1.Count now).2 = (c.Count now).2 := by
  calc ((c.Count now).1.Count now).2
      = countFormula ((c.advance now).advance now) now := rfl
    _ = countFormula (c.advance now) now := by rw [advance_idem c now]
    _ = (c.Count now).2 := rfl

/-- Witness for C10 on `demoCounter` at `now = 200`. -/
theorem count_idempotent_witness :
    (0:ℤ) < demoCounter.size ∧
    ((demoCounter.Count 200).1.Count 200).2 = (demoCounter.Count 200).2 :=
  ⟨by decide, count_idempotent demoCounter 200 (by decide)⟩

/-- C1: for every instant `now`, `Count(now)` first runs the advance step
and then returns `floor(weight * prev.Count()) + curr.Count()`, where
`elapsed = now - curr.Start()` and `weight = (size - elapsed) / size` over
the post-advance windows; since the weighted term is non-negative here, the
code's truncation toward zero agrees with the floor. Stated for a counter
with a window-aligned current start and non-negative counts. -/
theorem count_floor_formula (c : Counter) (now k : ℤ) (hsz : 0 < c.size)
    (hal : c.curr.Start = c.size * k)
    (hp : 0 ≤ c.prev.Count) (hc : 0 ≤ c.curr.Count) :
    (c.Count now).1 = c.advance now ∧
    (c.Count now).2 =
      ⌊(((c.advance now).size - (now - (c.advance now).curr.Start) : ℤ) : ℚ) /
          (((c.advance now).size : ℤ) : ℚ) * (((c.advance now).prev.Count : ℤ) : ℚ)⌋
        + (c.advance now).curr.Count := by
  refine ⟨rfl, ?_⟩
  show countFormula (c.advance now) now = _
  unfold countFormula
  congr 1
  apply ratTrunc_eq_floor
  have hsz2 : (c.advance now).size = c.size := advance_size c now
  have hel : now - (c.advance now).curr.Start < c.size := advance_elapsed_lt c now k hsz hal
  have hpc : 0 ≤ (c.advance now).prev.Count := advance_prev_count_nonneg c now hp hc
  apply mul_nonneg
  · apply div_nonneg
    · exact_mod_cast (by omega :
        (0:ℤ) ≤ (c.advance now).size - (now - (c.advance now).curr.Start))
    · exact_mod_cast (by omega : (0:ℤ) ≤ (c.advance now).size)
  · exact_mod_cast hpc

/-- Witness for C1 on `demoCounter` at `now = 61` (the weighted term is
`floor(59/60 * 7) = 6`). -/
theorem count_floor_formula_witness :
    (0:ℤ) < demoCounter.size ∧ demoCounter.curr.Start = demoCounter.size * 0 ∧
    (0:ℤ) ≤ demoCounter.prev.Count ∧ (0:ℤ) ≤ demoCounter.curr.Count ∧
    (demoCounter.Count 61).2 =
      ⌊(((demoCounter.advance 61).size - (61 - (demoCounter.advance 61).curr.Start) : ℤ) : ℚ) /
          (((demoCounter.advance 61).size : ℤ) : ℚ) * (((demoCounter.advance 61).prev.Count : ℤ) : ℚ)⌋
        + (demoCounter.advance 61).curr.Count :=
  ⟨by decide, by decide, by decide, by decide,
    (count_floor_formula demoCounter 61 0 (by decide) (by decide) (by decide) (by decide)).2⟩

/-- C9: with size 60 and a current bucket starting at the aligned instant
`t0 = 60 * k` holding count 10, calling `Count` at `t0 + 61` (so `diff = 1`)
rotates the snapshot 10 into the previous window, leaves the current window
at 0, and returns `floor(59/60 * 10) + 0 = 9` — for every `k` and every
prior previous-window content. -/
theorem count_scenario_60s (b bp : Backend) (k ps pc : ℤ) :
    ((scenarioCounter b bp k ps pc).advance (60 * k + 61)).prev.Count = 10 ∧
    ((scenarioCounter b bp k ps pc).advance (60 * k + 61)).curr.Count = 0 ∧
    ((scenarioCounter b bp k ps pc).Count (60 * k + 61)).2 = 9 := by
  have hfd : Int.fdiv (60 * k + 61 : ℤ) 60 = k + 1 := by
    rw [Int.fdiv_eq_ediv _ (by norm_num)]
    rw [show (60 * k + 61 : ℤ) = 61 + 60 * k from by ring]
    rw [Int.add_mul_ediv_left 61 k (by norm_num : (60:ℤ) ≠ 0)]
    have h61 : (61:ℤ) / 60 = 1 := by decide
    omega
  have hncs : (scenarioCounter b bp k ps pc).newCurrStart (60 * k + 61) = 60 * (k + 1) := by
    show goTruncate (60 * k + 61) 60 = 60 * (k + 1)
    rw [goTruncate_of_pos _ (by norm_num : (0:ℤ) < 60), hfd]
  have hdiff : (scenarioCounter b bp k ps pc).diffSize (60 * k + 61) = 1 := by
    show Int.tdiv ((scenarioCounter b bp k ps pc).newCurrStart (60 * k + 61) - 60 * k) 60 = 1
    rw [hncs]
    rw [show (60 * (k + 1) - 60 * k : ℤ) = 60 from by ring]
    decide
  have h1 : 1 ≤ (scenarioCounter b bp k ps pc).diffSize (60 * k + 61) := by omega
  refine ⟨?_, ?_, ?_⟩
  · rw [advance_of_ge _ _ h1]
    show (if (scenarioCounter b bp k ps pc).diffSize (60 * k + 61) = 1 then (10:ℤ) else 0) = 10
    rw [if_pos hdiff]
  · rw [advance_of_ge _ _ h1]
    rfl
  · show countFormula ((scenarioCounter b bp k ps pc).advance (60 * k + 61)) (60 * k + 61) = 9
    rw [advance_of_ge _ _ h1, if_pos hdiff, hncs]
    show ratTrunc (((60 - ((60 * k + 61) - 60 * (k + 1)) : ℤ) : ℚ) / ((60 : ℤ) : ℚ)
        * ((10 : ℤ) : ℚ)) + 0 = 9
    rw [show ((60 * k + 61) - 60 * (k + 1) : ℤ) = 1 from by ring]
    rw [show ((60 - 1 : ℤ) : ℚ) / ((60 : ℤ) : ℚ) * ((10 : ℤ) : ℚ) = 59 / 6 from by norm_num]
    rw [ratTrunc_eq_floor _ (by norm_num)]
    have hfl : ⌊(59 / 6 : ℚ)⌋ = 9 := by
      rw [Int.floor_eq_iff]
      constructor <;> norm_num
    omega

/-- C4 counterexample: the claimed invariant fails. Immediately after
construction (size 60, local factory) both windows start at the zero time,
so `prev.start ≠ curr.start - size`; and after `AddN` at `now = 130`
followed by `AddN` at `now = 30` (a clock that moved backwards), the current
window's start (120) is not the bucket containing the last operation's
`now = 30`. -/
theorem counter_invariant_cex :
    ((NewCounter 60 NewLocalWindow 0).1.prev.Start ≠
      (NewCounter 60 NewLocalWindow 0).1.curr.Start - (NewCounter 60 NewLocalWindow 0).1.size) ∧
    ¬((((NewCounter 60 NewLocalWindow 0).1.AddN 130 1).AddN 30 1).curr.Start ≤ 30 ∧
      (30:ℤ) < (((NewCounter 60 NewLocalWindow 0).1.AddN 130 1).AddN 30 1).curr.Start + 60) := by
  decide

/-- C4 amended: the offset invariant `prev.start = curr.start - size` is
established by every operation whose advance rotates and preserved by every
`AddN`/`Count` once it holds, but immediately after construction the
previous window starts at the zero time instead; and `curr.start` is the
window-aligned bucket containing the operation's `now` provided `curr.start`
was aligned and the clock did not run backwards past it
(`curr.start ≤ now`). -/
theorem counter_invariant_amended (c : Counter) (now n sz si : ℤ) (w : NewWindow)
    (hsz : 0 < c.size) :
    (NewCounter sz w si).1.prev.Start = 0 ∧
    (1 ≤ c.diffSize now →
      (c.advance now).prev.Start = (c.advance now).curr.Start - c.size) ∧
    (c.prev.Start = c.curr.Start - c.size →
      (c.AddN now n).prev.Start = (c.AddN now n).curr.Start - c.size ∧
      (c.Count now).1.prev.Start = (c.Count now).1.curr.Start - c.size) ∧
    ((∃ j, c.curr.Start = c.size * j) → c.curr.Start ≤ now →
      (∃ m, (c.advance now).curr.Start = c.size * m) ∧
      (c.advance now).curr.Start ≤ now ∧ now < (c.advance now).curr.Start + c.size) := by
  refine ⟨rfl, ?_, ?_, ?_⟩
  · intro h
    rw [advance_of_ge c now h]
    rfl
  · intro h
    have hadv := advance_prev_start_eq c now h
    refine ⟨?_, hadv⟩
    rw [AddN_prev, AddN_curr_start]
    exact hadv
  · rintro ⟨j, hj⟩ hle
    refine ⟨advance_aligned c now j hsz hj, advance_start_le c now hsz hle, ?_⟩
    have := advance_elapsed_lt c now j hsz hj
    omega

/-- Witness for the amended C4 on `demoCounter` (which satisfies the offset
invariant) at `now = 130`: both write and read paths preserve the offset. -/
theorem counter_invariant_amended_witness :
    (0:ℤ) < demoCounter.size ∧
    demoCounter.prev.Start = demoCounter.curr.Start - demoCounter.size ∧
    (demoCounter.AddN 130 1).prev.Start = (demoCounter.AddN 130 1).curr.Start - demoCounter.size :=
  ⟨by decide, by decide,
    ((counter_invariant_amended demoCounter 130 1 60 0 NewLocalWindow (by decide)).2.2.1
      (by decide)).1⟩
